import Mathlib

/-!
# Verification of `tiketdatarisal/redis-go-cache` (`cache.go`)

A shallow embedding of the cache client in `cache.go`.  The client is a
thin wrapper over a pooled connection to a Redis-like store; every
operation is modelled as a pure function from

  * the client state (`nil` client / `nil` pool / ready),
  * the process-wide separator variable `Separator`,
  * the operation's arguments, and
  * an oracle describing the store's replies to the commands issued,

to the pair (list of commands issued to the store, result returned to the
caller).  Go errors are modelled by their message strings; `error = nil`
is `Option.none` (for `error`-returning operations) or `Except.ok`
(for value-returning operations).
-/

namespace RedisGoCache

/-- The state of the `*Cache` receiver: `nilClient` models `c == nil`,
`nilPool` models `c != nil && c.pool == nil`, `ready` models a usable pool.
From `cache.go`: every operation begins with `if c == nil || c.pool == nil`. -/
inductive ClientState
  | nilClient
  | nilPool
  | ready
deriving DecidableEq, Repr

/-- `c != nil && c.pool != nil` — the guard that every operation checks. -/
def ClientState.initialized : ClientState → Bool
  | .ready => true
  | _ => false

/-- Message of `NotInitializedError = fmt.Errorf("cache was not initialized")`
(cache.go line 13). -/
def notInitializedMsg : String := "cache was not initialized"

/-- `DefaultSeparator = ":"` (cache.go line 10). -/
def DefaultSeparator : String := ":"

/-- A Redis reply value, as seen through redigo's `interface{}` replies:
`nil`, an integer, a bulk (byte) string, or a status string. -/
inductive RVal
  | nil
  | int (n : Int)
  | bulk (s : String)
  | status (s : String)
deriving DecidableEq, Repr

/-- A command issued to the store, with the arguments the code passes. -/
inductive Cmd
  | ping
  | get (key : String)
  | set (key : String) (value : RVal)
  | setex (key : String) (seconds : Int) (value : RVal)
  | existsKey (key : String)
  | del (key : String)
  | scan (cursor : Int) (matchArg : String)
  | unlink (keys : List String)
deriving DecidableEq, Repr

/-- The effective ("namespaced") key.  Transcribes the block repeated
verbatim in `Get`, `Set`, `SetEx`, `Exists`, `Delete`, `Clear` and
`GetKeys` (e.g. cache.go lines 76–79):

```
ns := key
if len(namespace) > 0 {
    ns = fmt.Sprintf("%s:%s", strings.Join(namespace, Separator), ns)
}
```

The variadic `namespace ...string` parameter is a Go slice: `none` models
the `nil` slice (parameter omitted at the call site), `some l` an explicit
slice.  `len` of the `nil` slice is `0`.  Note that the format string
`"%s:%s"` hard-codes `":"` between the joined namespace and the base key;
only the join *between namespace segments* uses the `Separator` variable. -/
def namespacedKey (sep : String) (key : String) (nsArgs : Option (List String)) : String :=
  if 0 < (nsArgs.getD []).length then
    String.intercalate sep (nsArgs.getD []) ++ ":" ++ key
  else key

/-- Go `fmt.Sprintf` applied to a format string with **no operands**, as in
`fmt.Sprintf(ns)` (cache.go lines 205 and 255).  Modelled from the Go `fmt`
package documentation: ordinary characters are copied; `%%` emits a literal
`%`; a `%` followed by a verb character with no remaining operand emits
`%!<verb>(MISSING)`; a `%` ending the string emits `%!(NOVERB)`.
(Width/precision modifiers after `%` are not distinguished from verbs here;
no theorem below depends on a pattern using them.) -/
def sprintfNoArgsAux : List Char → List Char
  | [] => []
  | c :: rest =>
    if c = '%' then
      match rest with
      | [] => "%!(NOVERB)".data
      | d :: rest2 =>
        if d = '%' then '%' :: sprintfNoArgsAux rest2
        else "%!".data ++ d :: "(MISSING)".data ++ sprintfNoArgsAux rest2
    else c :: sprintfNoArgsAux rest

/-- `fmt.Sprintf(s)` with no operands, on `String`. -/
def sprintfNoArgs (s : String) : String := ⟨sprintfNoArgsAux s.data⟩

/-- The store's reply to `r.Do(...)`: either an error or a reply value. -/
def DoReply := Except String RVal

/-- The outcome of one `SCAN` round trip, after the code's
`redis.Values(r.Do("SCAN", ...))` followed by `redis.Scan(values, &cursor, &keys)`
(cache.go lines 205–213 and 255–263): either a parsed page (new cursor and
page of keys), or a failure.  A `fail` covers both an error from `r.Do` and
a reply that redigo's `Values`/`Scan` cannot parse — the code's observable
behaviour (wrap the error, return, no `UNLINK` for the page) is identical
in the two cases. -/
inductive ScanStep
  | page (next : Int) (keys : List String)
  | fail (e : String)
deriving DecidableEq, Repr

/-- `fmt.Errorf("failed to retrieve key '%s', reason %v", ns, err)` (line 82). -/
def getWrap (ns e : String) : String :=
  "failed to retrieve key '" ++ ns ++ "', reason " ++ e

/-- `fmt.Errorf("failed to set value to key '%s', reason: %v", ns, err)`
(lines 119 and 139). -/
def setWrap (ns e : String) : String :=
  "failed to set value to key '" ++ ns ++ "', reason: " ++ e

/-- `fmt.Errorf("failed to check key '%s' existance, reason: %v", ns, err)` (line 159). -/
def existsWrap (ns e : String) : String :=
  "failed to check key '" ++ ns ++ "' existance, reason: " ++ e

/-- `fmt.Errorf("failed to delete key '%s', reason: %v", ns, err)` (line 179). -/
def deleteWrap (ns e : String) : String :=
  "failed to delete key '" ++ ns ++ "', reason: " ++ e

/-- `fmt.Errorf("failed to 'PING' db, reason: %v", err)` (line 62). -/
def pingWrap (e : String) : String :=
  "failed to 'PING' db, reason: " ++ e

/-- `const msg = "failed to clear db, reason %v"` (line 190), applied by
`fmt.Errorf(msg, err)`. -/
def clearWrap (e : String) : String := "failed to clear db, reason " ++ e

/-- `const msg = "failed to retrieve keys, reason %v"` (line 239), applied by
`fmt.Errorf(msg, err)`. -/
def getKeysWrap (e : String) : String := "failed to retrieve keys, reason " ++ e

/-- `Cache.Ping` (cache.go lines 53–66). -/
def cachePing (st : ClientState) (reply : DoReply) :
    List Cmd × Option String :=
  if !st.initialized then ([], some notInitializedMsg)
  else
    ([Cmd.ping],
      match reply with
      | .error e => some (pingWrap e)
      | .ok _ => none)

/-- `Cache.Get` (cache.go lines 68–87). -/
def cacheGet (st : ClientState) (sep key : String) (nsArgs : Option (List String))
    (reply : DoReply) : List Cmd × Except String RVal :=
  if !st.initialized then ([], .error notInitializedMsg)
  else
    let ns := namespacedKey sep key nsArgs
    ([Cmd.get ns],
      match reply with
      | .error e => .error (getWrap ns e)
      | .ok v => .ok v)

/-- `strconv.ParseBool`, used by redigo to convert a bulk string to a bool.
Modelled from the spec: redigo is an external dependency (not under `src/`);
the typed getters "convert the raw reply to the requested type" and fail
with a conversion error otherwise. -/
def goParseBool (s : String) : Option Bool :=
  if s = "1" ∨ s = "t" ∨ s = "T" ∨ s = "TRUE" ∨ s = "true" ∨ s = "True" then some true
  else if s = "0" ∨ s = "f" ∨ s = "F" ∨ s = "FALSE" ∨ s = "false" ∨ s = "False" then
    some false
  else none

/-- redigo's `ErrNil` message. Modelled from the spec: redigo is an external
dependency; a typed getter on an absent key surfaces redigo's nil-reply error. -/
def errNilMsg : String := "redigo: nil returned"

/-- redigo type-conversion failure message for an unexpected reply type.
Modelled from the spec: the typed getters fail with a conversion error when
the stored value cannot convert. -/
def convErrMsg (want : String) : String :=
  "redigo: unexpected type for " ++ want

/-- `redis.Bool(reply, err)`.  Modelled from the spec (redigo is an external
dependency): on a non-nil error the error is returned with the zero value;
an integer reply converts to `n != 0`; a bulk string parses via
`strconv.ParseBool`; a nil reply yields `ErrNil`. -/
def redisBool : Except String RVal → Except String Bool
  | .error e => .error e
  | .ok (.int n) => .ok (n ≠ 0)
  | .ok (.bulk s) =>
      match goParseBool s with
      | some b => .ok b
      | none => .error (convErrMsg "Bool")
  | .ok .nil => .error errNilMsg
  | .ok (.status _) => .error (convErrMsg "Bool")

/-- Go `strconv.Atoi` on the digits case, for redigo's `Int` conversion.
Modelled from the spec (external dependency): a numeric string converts,
anything else is a conversion error. -/
def goAtoi (s : String) : Option Int :=
  match s.data with
  | '-' :: ds => if ds ≠ [] ∧ ds.all Char.isDigit then some (-(s.drop 1).toNat!) else none
  | ds => if ds ≠ [] ∧ ds.all Char.isDigit then some s.toNat! else none

/-- `redis.Int(reply, err)`.  Modelled from the spec (external dependency). -/
def redisInt : Except String RVal → Except String Int
  | .error e => .error e
  | .ok (.int n) => .ok n
  | .ok (.bulk s) =>
      match goAtoi s with
      | some n => .ok n
      | none => .error (convErrMsg "Int")
  | .ok .nil => .error errNilMsg
  | .ok (.status _) => .error (convErrMsg "Int")

/-- `redis.String(reply, err)`.  Modelled from the spec (external dependency). -/
def redisString : Except String RVal → Except String String
  | .error e => .error e
  | .ok (.bulk s) => .ok s
  | .ok (.status s) => .ok s
  | .ok .nil => .error errNilMsg
  | .ok (.int _) => .error (convErrMsg "String")

/-- `redis.Bytes(reply, err)` (byte slices modelled as strings).
Modelled from the spec (external dependency). -/
def redisBytes : Except String RVal → Except String String
  | .error e => .error e
  | .ok (.bulk s) => .ok s
  | .ok (.status s) => .ok s
  | .ok .nil => .error errNilMsg
  | .ok (.int _) => .error (convErrMsg "Bytes")

/-- `Cache.GetBool` (cache.go lines 89–91): `redis.Bool(c.Get(key, namespace...))`. -/
def cacheGetBool (st : ClientState) (sep key : String) (nsArgs : Option (List String))
    (reply : DoReply) : List Cmd × Except String Bool :=
  let r := cacheGet st sep key nsArgs reply
  (r.1, redisBool r.2)

/-- `Cache.GetBytes` (cache.go lines 93–95). -/
def cacheGetBytes (st : ClientState) (sep key : String) (nsArgs : Option (List String))
    (reply : DoReply) : List Cmd × Except String String :=
  let r := cacheGet st sep key nsArgs reply
  (r.1, redisBytes r.2)

/-- `Cache.GetInt` (cache.go lines 97–99). -/
def cacheGetInt (st : ClientState) (sep key : String) (nsArgs : Option (List String))
    (reply : DoReply) : List Cmd × Except String Int :=
  let r := cacheGet st sep key nsArgs reply
  (r.1, redisInt r.2)

/-- `Cache.GetString` (cache.go lines 101–103). -/
def cacheGetString (st : ClientState) (sep key : String) (nsArgs : Option (List String))
    (reply : DoReply) : List Cmd × Except String String :=
  let r := cacheGet st sep key nsArgs reply
  (r.1, redisString r.2)

/-- `Cache.Set` (cache.go lines 105–123). -/
def cacheSet (st : ClientState) (sep key : String) (value : RVal)
    (nsArgs : Option (List String)) (reply : DoReply) :
    List Cmd × Option String :=
  if !st.initialized then ([], some notInitializedMsg)
  else
    let ns := namespacedKey sep key nsArgs
    ([Cmd.set ns value],
      match reply with
      | .error e => some (setWrap ns e)
      | .ok _ => none)

/-- `time.Second` in nanoseconds: a Go `time.Duration` is an `int64`
nanosecond count. -/
def nsPerSecond : Int := 1000000000

/-- `int(duration/time.Second)` (cache.go line 138): Go integer division of
`int64` values truncates toward zero (`Int.tdiv`), and the `int` conversion
is the identity on a 64-bit platform. -/
def setexSeconds (duration : Int) : Int := Int.tdiv duration nsPerSecond

/-- `Cache.SetEx` (cache.go lines 125–143). -/
def cacheSetEx (st : ClientState) (sep key : String) (value : RVal) (duration : Int)
    (nsArgs : Option (List String)) (reply : DoReply) :
    List Cmd × Option String :=
  if !st.initialized then ([], some notInitializedMsg)
  else
    let ns := namespacedKey sep key nsArgs
    ([Cmd.setex ns (setexSeconds duration) value],
      match reply with
      | .error e => some (setWrap ns e)
      | .ok _ => none)

/-- `Cache.Exists` (cache.go lines 145–163): `redis.Bool(r.Do("EXISTS", ns))`. -/
def cacheExists (st : ClientState) (sep key : String) (nsArgs : Option (List String))
    (reply : DoReply) : List Cmd × Except String Bool :=
  if !st.initialized then ([], .error notInitializedMsg)
  else
    let ns := namespacedKey sep key nsArgs
    ([Cmd.existsKey ns],
      match redisBool reply with
      | .error e => .error (existsWrap ns e)
      | .ok ok => .ok ok)

/-- `Cache.Delete` (cache.go lines 165–183). -/
def cacheDelete (st : ClientState) (sep key : String) (nsArgs : Option (List String))
    (reply : DoReply) : List Cmd × Option String :=
  if !st.initialized then ([], some notInitializedMsg)
  else
    let ns := namespacedKey sep key nsArgs
    ([Cmd.del ns],
      match reply with
      | .error e => some (deleteWrap ns e)
      | .ok _ => none)

/-- The `for` loop of `Cache.Clear` (cache.go lines 204–225).

`steps` is the store's answer to each successive `SCAN` (consumed in
order); `unlinkReplies` is the store's answer to each successive `UNLINK`
(`none` = success, `some e` = error), also consumed in order.  The result
is `none` when the supplied replies run out while the loop would still be
waiting on the store (the trace then ends with the unanswered command),
`some r` when the loop returns, where `r : Option String` is the Go
`error` result. -/
def clearLoop (matchArg : String) (cursor : Int) :
    List ScanStep → List (Option String) → List Cmd × Option (Option String)
  | [], _ => ([Cmd.scan cursor matchArg], none)
  | .fail e :: _, _ => ([Cmd.scan cursor matchArg], some (some (clearWrap e)))
  | .page next keys :: rest, unlinkReplies =>
    if 0 < keys.length then
      match unlinkReplies with
      | [] => ([Cmd.scan cursor matchArg, Cmd.unlink keys], none)
      | some e :: _ =>
          ([Cmd.scan cursor matchArg, Cmd.unlink keys], some (some (clearWrap e)))
      | none :: unlinkRest =>
          if next = 0 then ([Cmd.scan cursor matchArg, Cmd.unlink keys], some none)
          else
            let t := clearLoop matchArg next rest unlinkRest
            (Cmd.scan cursor matchArg :: Cmd.unlink keys :: t.1, t.2)
    else
      if next = 0 then ([Cmd.scan cursor matchArg], some none)
      else
        let t := clearLoop matchArg next rest unlinkReplies
        (Cmd.scan cursor matchArg :: t.1, t.2)

/-- `Cache.Clear` (cache.go lines 185–228).  The pattern sent with `MATCH`
is `fmt.Sprintf(ns)` (line 205). -/
def cacheClear (st : ClientState) (sep pattern : String) (nsArgs : Option (List String))
    (steps : List ScanStep) (unlinkReplies : List (Option String)) :
    List Cmd × Option (Option String) :=
  if !st.initialized then ([], some (some notInitializedMsg))
  else
    let ns := namespacedKey sep pattern nsArgs
    clearLoop (sprintfNoArgs ns) 0 steps unlinkReplies

/-- `Cache.ClearAll` (cache.go lines 230–232): `c.Clear("*", namespace...)`. -/
def cacheClearAll (st : ClientState) (sep : String) (nsArgs : Option (List String))
    (steps : List ScanStep) (unlinkReplies : List (Option String)) :
    List Cmd × Option (Option String) :=
  cacheClear st sep "*" nsArgs steps unlinkReplies

/-- The `for` loop of `Cache.GetKeys` (cache.go lines 254–269).
`acc` is the `keys` accumulator (`keys = append(keys, items...)`). -/
def getKeysLoop (matchArg : String) (cursor : Int) (acc : List String) :
    List ScanStep → List Cmd × Option (Except String (List String))
  | [] => ([Cmd.scan cursor matchArg], none)
  | .fail e :: _ => ([Cmd.scan cursor matchArg], some (.error (getKeysWrap e)))
  | .page next keys :: rest =>
    if next = 0 then ([Cmd.scan cursor matchArg], some (.ok (acc ++ keys)))
    else
      let t := getKeysLoop matchArg next (acc ++ keys) rest
      (Cmd.scan cursor matchArg :: t.1, t.2)

/-- `Cache.GetKeys` (cache.go lines 234–272).  The pattern sent with `MATCH`
is `fmt.Sprintf(ns)` (line 255). -/
def cacheGetKeys (st : ClientState) (sep pattern : String) (nsArgs : Option (List String))
    (steps : List ScanStep) : List Cmd × Option (Except String (List String)) :=
  if !st.initialized then ([], some (.error notInitializedMsg))
  else
    let ns := namespacedKey sep pattern nsArgs
    getKeysLoop (sprintfNoArgs ns) 0 [] steps

/-- `Cache.GetAllKeys` (cache.go lines 274–276): `c.GetKeys("*", namespace...)`. -/
def cacheGetAllKeys (st : ClientState) (sep : String) (nsArgs : Option (List String))
    (steps : List ScanStep) : List Cmd × Option (Except String (List String)) :=
  cacheGetKeys st sep "*" nsArgs steps

/-! ## Spec-side descriptions of the scan loops

The following definitions transcribe the *claims'* description of the scan
loops (cursor threading starting at 0, stop exactly at cursor 0,
page-order concatenation, one `UNLINK` per non-empty page before the next
`SCAN`, first error wins).  The theorems below compare them with the
code-side loops `getKeysLoop`/`clearLoop`. -/

/-- Claim-side scan command sequence: a `SCAN` is issued with cursor
`cursor`; while a page reports a non-zero next cursor, the next `SCAN` is
issued with exactly that cursor; the loop stops exactly when the store
reports cursor `0` (or on a failed `SCAN`, or when the reply stream is
exhausted). -/
def scanCmdsSpec (m : String) (cursor : Int) : List ScanStep → List Cmd
  | [] => [Cmd.scan cursor m]
  | .fail _ :: _ => [Cmd.scan cursor m]
  | .page next _ :: rest =>
    if next = 0 then [Cmd.scan cursor m]
    else Cmd.scan cursor m :: scanCmdsSpec m next rest

/-- Claim-side `GetKeys` result: the concatenation, in page order and
without deduplication, of all keys of the pages up to and including the
first page whose next cursor is `0`; the first `SCAN` failure propagates;
`none` if the reply stream is exhausted before cursor `0`. -/
def getKeysResSpec : List ScanStep → Option (Except String (List String))
  | [] => none
  | .fail e :: _ => some (.error (getKeysWrap e))
  | .page next keys :: rest =>
    if next = 0 then some (.ok keys)
    else
      match getKeysResSpec rest with
      | some (.ok ks) => some (.ok (keys ++ ks))
      | other => other

/-- Claim-side (amended) `Clear` command sequence: per page, a `SCAN`,
then — when and only when the page is non-empty — one `UNLINK` with
exactly that page's keys, before any further `SCAN`; the loop stops at
cursor `0` or on the first error. -/
def clearCmdsSpec (m : String) (cursor : Int) :
    List ScanStep → List (Option String) → List Cmd
  | [], _ => [Cmd.scan cursor m]
  | .fail _ :: _, _ => [Cmd.scan cursor m]
  | .page next keys :: rest, unl =>
    Cmd.scan cursor m ::
      (if 0 < keys.length then
        Cmd.unlink keys ::
          (match unl with
           | [] => []
           | some _ :: _ => []
           | none :: unlRest => if next = 0 then [] else clearCmdsSpec m next rest unlRest)
       else if next = 0 then [] else clearCmdsSpec m next rest unl)

/-- Claim-side `Clear` result: the first error from any `SCAN` or `UNLINK`
is wrapped and returned; success when the store reports cursor `0` with no
error; `none` if the reply stream runs out first. -/
def clearResSpec : List ScanStep → List (Option String) → Option (Option String)
  | [], _ => none
  | .fail e :: _, _ => some (some (clearWrap e))
  | .page next keys :: rest, unl =>
    if 0 < keys.length then
      match unl with
      | [] => none
      | some e :: _ => some (some (clearWrap e))
      | none :: unlRest => if next = 0 then some none else clearResSpec rest unlRest
    else if next = 0 then some none else clearResSpec rest unl

/-- The pages of keys that the `Clear` loop receives from `SCAN` before it
stops (claim-side bookkeeping for "prior pages remain deleted"). -/
def clearPages : List ScanStep → List (Option String) → List (List String)
  | [], _ => []
  | .fail _ :: _, _ => []
  | .page next keys :: rest, unl =>
    if 0 < keys.length then
      match unl with
      | [] => [keys]
      | some _ :: _ => [keys]
      | none :: unlRest => if next = 0 then [keys] else keys :: clearPages rest unlRest
    else if next = 0 then [keys] else keys :: clearPages rest unl

/-- `true` exactly on a `SCAN` command. -/
def Cmd.isScan : Cmd → Bool
  | .scan _ _ => true
  | _ => false

/-- `true` exactly on an `UNLINK` command. -/
def Cmd.isUnlink : Cmd → Bool
  | .unlink _ => true
  | _ => false

/-! ### Characterization lemmas for the loops -/

/-- The `GetKeys` loop issues exactly the claim-side scan sequence and
returns the accumulator followed by the claim-side concatenation. -/
theorem getKeysLoop_eq (m : String) :
    ∀ (steps : List ScanStep) (cursor : Int) (acc : List String),
      getKeysLoop m cursor acc steps =
        (scanCmdsSpec m cursor steps,
          (getKeysResSpec steps).map (Except.map (acc ++ ·))) := by
  intro steps
  induction steps with
  | nil => intro cursor acc; rfl
  | cons s rest ih =>
      intro cursor acc
      cases s with
      | fail e => simp [getKeysLoop, scanCmdsSpec, getKeysResSpec, Except.map]
      | page next keys =>
          by_cases h : next = 0
          · simp [getKeysLoop, scanCmdsSpec, getKeysResSpec, h, Except.map]
          · simp only [getKeysLoop, scanCmdsSpec, getKeysResSpec, h, if_neg, ih]
            cases hr : getKeysResSpec rest with
            | none => simp
            | some r =>
                cases r with
                | ok ks => simp [Except.map, List.append_assoc]
                | error e => simp [Except.map]

/-- The `Clear` loop issues exactly the (amended) claim-side command
sequence and returns the claim-side result. -/
theorem clearLoop_eq (m : String) :
    ∀ (steps : List ScanStep) (cursor : Int) (unl : List (Option String)),
      clearLoop m cursor steps unl =
        (clearCmdsSpec m cursor steps unl, clearResSpec steps unl) := by
  intro steps
  induction steps with
  | nil => intro cursor unl; rfl
  | cons s rest ih =>
      intro cursor unl
      cases s with
      | fail e => rfl
      | page next keys =>
          by_cases hk : 0 < keys.length
          · cases unl with
            | nil => simp [clearLoop, clearCmdsSpec, clearResSpec, hk]
            | cons u unlRest =>
                cases u with
                | none =>
                    by_cases h : next = 0
                    · simp [clearLoop, clearCmdsSpec, clearResSpec, hk, h]
                    · simp [clearLoop, clearCmdsSpec, clearResSpec, hk, h, ih]
                | some e => simp [clearLoop, clearCmdsSpec, clearResSpec, hk]
          · by_cases h : next = 0
            · simp [clearLoop, clearCmdsSpec, clearResSpec, hk, h]
            · simp [clearLoop, clearCmdsSpec, clearResSpec, hk, h, ih]

/-- `fmt.Sprintf` with no operands is the identity on a format string
containing no `%`. -/
theorem sprintfNoArgsAux_of_no_percent :
    ∀ l : List Char, '%' ∉ l → sprintfNoArgsAux l = l := by
  intro l
  induction l with
  | nil => intro _; rfl
  | cons c rest ih =>
      intro h
      have hc : ¬ c = '%' := fun hc => h (hc ▸ List.mem_cons_self c rest)
      have hrest : '%' ∉ rest := fun hr => h (List.mem_cons_of_mem c hr)
      cases rest with
      | nil => simp [sprintfNoArgsAux.eq_2, sprintfNoArgsAux.eq_1, hc]
      | cons d rest2 => simp [sprintfNoArgsAux.eq_3, hc, ih hrest]

/-- String version of `sprintfNoArgsAux_of_no_percent`. -/
theorem sprintfNoArgs_of_no_percent (s : String) (h : '%' ∉ s.data) :
    sprintfNoArgs s = s := by
  cases s with
  | mk data =>
      show (⟨sprintfNoArgsAux data⟩ : String) = ⟨data⟩
      rw [sprintfNoArgsAux_of_no_percent data h]

/-- Go's `duration/time.Second` truncates toward zero: the result is the
sign of the duration times the whole number of seconds in its absolute
value. -/
theorem setexSeconds_eq (d : Int) :
    setexSeconds d = d.sign * ((d.natAbs / 1000000000 : Nat) : Int) := by
  rcases d with m | m
  · cases m with
    | zero => decide
    | succ k =>
        show Int.ofNat ((k + 1) / 1000000000) = 1 * Int.ofNat ((k + 1) / 1000000000)
        rw [one_mul]
  · show -Int.ofNat ((m + 1) / 1000000000) = -1 * Int.ofNat ((m + 1) / 1000000000)
    rw [neg_one_mul]

/-- A non-negative duration shorter than one second truncates to `0`. -/
theorem setexSeconds_eq_zero (d : Int) (h0 : 0 ≤ d) (h1 : d < nsPerSecond) :
    setexSeconds d = 0 := by
  rw [setexSeconds_eq]
  have h1' : d < 1000000000 := by simpa [nsPerSecond] using h1
  have hlt : d.natAbs < 1000000000 := by
    have := Int.natAbs_of_nonneg h0
    omega
  rw [Nat.div_eq_of_lt hlt]
  simp

/-- Every `SCAN` in the claim-side scan sequence carries the same `MATCH`
argument. -/
theorem scanCmdsSpec_matchArg (m : String) :
    ∀ (steps : List ScanStep) (cursor c' : Int) (m' : String),
      Cmd.scan c' m' ∈ scanCmdsSpec m cursor steps → m' = m := by
  intro steps
  induction steps with
  | nil =>
      intro cursor c' m' hmem
      simp only [scanCmdsSpec, List.mem_singleton, Cmd.scan.injEq] at hmem
      exact hmem.2
  | cons s rest ih =>
      intro cursor c' m' hmem
      cases s with
      | fail e =>
          simp only [scanCmdsSpec, List.mem_singleton, Cmd.scan.injEq] at hmem
          exact hmem.2
      | page next keys =>
          by_cases h : next = 0
          · simp only [scanCmdsSpec, h, if_pos, List.mem_singleton, Cmd.scan.injEq] at hmem
            exact hmem.2
          · simp only [scanCmdsSpec, h, if_neg, not_false_iff, List.mem_cons,
              Cmd.scan.injEq] at hmem
            rcases hmem with ⟨_, h2⟩ | h2
            · exact h2
            · exact ih next c' m' h2

/-- Every `SCAN` in the claim-side `Clear` command sequence carries the same
`MATCH` argument. -/
theorem clearCmdsSpec_matchArg (m : String) :
    ∀ (steps : List ScanStep) (cursor c' : Int) (unl : List (Option String)) (m' : String),
      Cmd.scan c' m' ∈ clearCmdsSpec m cursor steps unl → m' = m := by
  intro steps
  induction steps with
  | nil =>
      intro cursor c' unl m' hmem
      simp only [clearCmdsSpec, List.mem_singleton, Cmd.scan.injEq] at hmem
      exact hmem.2
  | cons s rest ih =>
      intro cursor c' unl m' hmem
      cases s with
      | fail e =>
          simp only [clearCmdsSpec, List.mem_singleton, Cmd.scan.injEq] at hmem
          exact hmem.2
      | page next keys =>
          simp only [clearCmdsSpec, List.mem_cons] at hmem
          rcases hmem with h2 | h2
          · simp only [Cmd.scan.injEq] at h2
            exact h2.2
          · by_cases hk : 0 < keys.length
            · simp only [if_pos hk, List.mem_cons] at h2
              rcases h2 with h3 | h3
              · cases h3
              · cases unl with
                | nil => simp at h3
                | cons u unlRest =>
                    cases u with
                    | none =>
                        by_cases hn : next = 0
                        · simp [hn] at h3
                        · simp only [hn, if_neg, not_false_iff] at h3
                          exact ih next c' unlRest m' h3
                    | some e => simp at h3
            · simp only [if_neg hk] at h2
              by_cases hn : next = 0
              · simp [hn] at h2
              · simp only [hn, if_neg, not_false_iff] at h2
                exact ih next c' unl m' h2

/-- Every `UNLINK` in the claim-side `Clear` command sequence has a
non-empty key list. -/
theorem clearCmdsSpec_unlink_ne_nil (m : String) :
    ∀ (steps : List ScanStep) (cursor : Int) (unl : List (Option String)) (ks : List String),
      Cmd.unlink ks ∈ clearCmdsSpec m cursor steps unl → ks ≠ [] := by
  intro steps
  induction steps with
  | nil => intro cursor unl ks hmem; simp [clearCmdsSpec] at hmem
  | cons s rest ih =>
      intro cursor unl ks hmem
      cases s with
      | fail e => simp [clearCmdsSpec] at hmem
      | page next keys =>
          simp only [clearCmdsSpec, List.mem_cons] at hmem
          rcases hmem with h2 | h2
          · cases h2
          · by_cases hk : 0 < keys.length
            · simp only [if_pos hk, List.mem_cons] at h2
              rcases h2 with h3 | h3
              · cases h3
                intro hnil
                rw [hnil] at hk
                simp at hk
              · cases unl with
                | nil => simp at h3
                | cons u unlRest =>
                    cases u with
                    | none =>
                        by_cases hn : next = 0
                        · simp [hn] at h3
                        · simp only [hn, if_neg, not_false_iff] at h3
                          exact ih next unlRest ks h3
                    | some e => simp at h3
            · simp only [if_neg hk] at h2
              by_cases hn : next = 0
              · simp [hn] at h2
              · simp only [hn, if_neg, not_false_iff] at h2
                exact ih next unl ks h2

/-- The number of `UNLINK` commands in the claim-side `Clear` command
sequence equals the number of non-empty pages received. -/
theorem clearCmdsSpec_countP_unlink (m : String) :
    ∀ (steps : List ScanStep) (cursor : Int) (unl : List (Option String)),
      (clearCmdsSpec m cursor steps unl).countP Cmd.isUnlink =
        (clearPages steps unl).countP (fun ks => !ks.isEmpty) := by
  intro steps
  induction steps with
  | nil => intro cursor unl; rfl
  | cons s rest ih =>
      intro cursor unl
      cases s with
      | fail e => rfl
      | page next keys =>
          by_cases hk : 0 < keys.length
          · have hne : ¬ keys.isEmpty := by
              cases keys with
              | nil => simp at hk
              | cons a l => simp
            cases unl with
            | nil =>
                simp [clearCmdsSpec, clearPages, hk, List.countP_cons, Cmd.isUnlink, hne]
            | cons u unlRest =>
                cases u with
                | none =>
                    by_cases hn : next = 0
                    · simp [clearCmdsSpec, clearPages, hk, hn, List.countP_cons,
                        Cmd.isUnlink, hne]
                    · simp [clearCmdsSpec, clearPages, hk, hn, List.countP_cons,
                        Cmd.isUnlink, hne, ih]
                | some e =>
                    simp [clearCmdsSpec, clearPages, hk, List.countP_cons, Cmd.isUnlink, hne]
          · have hemp : keys.isEmpty := by
              cases keys with
              | nil => simp
              | cons a l => simp at hk
            by_cases hn : next = 0
            · simp [clearCmdsSpec, clearPages, hk, hn, List.countP_cons, Cmd.isUnlink, hemp]
            · simp [clearCmdsSpec, clearPages, hk, hn, List.countP_cons, Cmd.isUnlink,
                hemp, ih]

/-- Every non-empty page received by the `Clear` loop has its `UNLINK`
in the command sequence ("prior pages remain deleted"). -/
theorem clearPages_unlink_mem (m : String) :
    ∀ (steps : List ScanStep) (cursor : Int) (unl : List (Option String)) (ks : List String),
      ks ∈ clearPages steps unl → ks ≠ [] →
        Cmd.unlink ks ∈ clearCmdsSpec m cursor steps unl := by
  intro steps
  induction steps with
  | nil => intro cursor unl ks hmem; simp [clearPages] at hmem
  | cons s rest ih =>
      intro cursor unl ks hmem hne
      cases s with
      | fail e => simp [clearPages] at hmem
      | page next keys =>
          by_cases hk : 0 < keys.length
          · cases unl with
            | nil =>
                simp only [clearPages, if_pos hk, List.mem_singleton] at hmem
                subst hmem
                simp [clearCmdsSpec, hk]
            | cons u unlRest =>
                cases u with
                | none =>
                    by_cases hn : next = 0
                    · simp only [clearPages, if_pos hk, hn, if_pos, List.mem_singleton]
                        at hmem
                      subst hmem
                      simp [clearCmdsSpec, hk, hn]
                    · simp only [clearPages, if_pos hk, hn, if_neg, not_false_iff,
                        List.mem_cons] at hmem
                      rcases hmem with h3 | h3
                      · subst h3
                        simp [clearCmdsSpec, hk, hn]
                      · have := ih next unlRest ks h3 hne
                        simp [clearCmdsSpec, hk, hn, this]
                | some e =>
                    simp only [clearPages, if_pos hk, List.mem_singleton] at hmem
                    subst hmem
                    simp [clearCmdsSpec, hk]
          · by_cases hn : next = 0
            · simp only [clearPages, if_neg hk, hn, if_pos, List.mem_singleton] at hmem
              have hkeys : ks = [] := by
                rw [hmem]
                exact List.length_eq_zero.mp (by omega)
              exact absurd hkeys hne
            · simp only [clearPages, if_neg hk, hn, if_neg, not_false_iff,
                List.mem_cons] at hmem
              rcases hmem with h3 | h3
              · have hkeys : ks = [] := by
                  rw [h3]
                  exact List.length_eq_zero.mp (by omega)
                exact absurd hkeys hne
              · have := ih next unl ks h3 hne
                simp [clearCmdsSpec, hk, hn, this]

/-- When no `UNLINK` fails (and the reply stream is long enough), the
`SCAN` commands `Clear` issues are exactly the scan sequence of `GetKeys`. -/
theorem clearCmdsSpec_filter_scan (m : String) :
    ∀ (steps : List ScanStep) (cursor : Int) (unl : List (Option String)),
      (∀ x ∈ unl, x = none) → steps.length ≤ unl.length →
        (clearCmdsSpec m cursor steps unl).filter Cmd.isScan =
          scanCmdsSpec m cursor steps := by
  intro steps
  induction steps with
  | nil => intro cursor unl _ _; rfl
  | cons s rest ih =>
      intro cursor unl hall hlen
      cases s with
      | fail e => rfl
      | page next keys =>
          by_cases hk : 0 < keys.length
          · cases unl with
            | nil => simp at hlen
            | cons u unlRest =>
                have hu : u = none := hall u (List.mem_cons_self u unlRest)
                subst hu
                by_cases hn : next = 0
                · simp [clearCmdsSpec, scanCmdsSpec, hk, hn, List.filter,
                    Cmd.isScan, Cmd.isUnlink]
                · have hall' : ∀ x ∈ unlRest, x = none :=
                    fun x hx => hall x (List.mem_cons_of_mem _ hx)
                  have hlen' : rest.length ≤ unlRest.length := by
                    simp only [List.length_cons] at hlen
                    omega
                  simp [clearCmdsSpec, scanCmdsSpec, hk, hn, List.filter,
                    Cmd.isScan, ih cursor unlRest hall' hlen', ih next unlRest hall' hlen']
          · by_cases hn : next = 0
            · simp [clearCmdsSpec, scanCmdsSpec, hk, hn, List.filter, Cmd.isScan]
            · have hlen' : rest.length ≤ unl.length := by
                simp only [List.length_cons] at hlen
                omega
              simp [clearCmdsSpec, scanCmdsSpec, hk, hn, List.filter, Cmd.isScan,
                ih next unl hall hlen']

/-! ## Claims -/

/-- C1, counterexample: with the configurable separator set to `"/"`,
namespace `["a", "b"]` and base key `"k"`, the key sent by `Get` is
`"a/b:k"` — the joined namespace followed by the **hard-coded** `":"` of
the `"%s:%s"` format string — and not `"a/b/k"` as the claim (joined
namespace, then the configured separator, then the base key, for every
separator value) requires. -/
theorem claim_C1_counterexample :
    (cacheGet .ready "/" "k" (some ["a", "b"]) (.ok .nil)).1 = [Cmd.get "a/b:k"] ∧
    (cacheGet .ready "/" "k" (some ["a", "b"]) (.ok .nil)).1 ≠
      [Cmd.get (String.intercalate "/" ["a", "b"] ++ "/" ++ "k")] := by
  exact ⟨by decide, by decide⟩

/-- C1, amended: for every operation, the effective key sent to the store
is the namespace segments joined with the configured separator, followed by
the **literal `":"`** (hard-coded in the `"%s:%s"` format string) and the
base key; with the default separator `":"` this coincides with the claim's
formula; when the namespace list is empty or omitted the base key is used
unmodified.  For the scan-based `GetKeys`/`Clear` the namespaced pattern is
additionally passed through `fmt.Sprintf` with no operands before being
sent as the `MATCH` argument. -/
theorem claim_C1 (sep key a : String) (l : List String) (nsArgs : Option (List String))
    (v : RVal) (d : Int) (reply : DoReply) (steps : List ScanStep)
    (unl : List (Option String)) :
    namespacedKey sep key (some (a :: l)) =
      String.intercalate sep (a :: l) ++ ":" ++ key ∧
    namespacedKey ":" key (some (a :: l)) =
      String.intercalate ":" (a :: l) ++ ":" ++ key ∧
    namespacedKey sep key none = key ∧
    namespacedKey sep key (some []) = key ∧
    (cacheGet .ready sep key nsArgs reply).1 = [Cmd.get (namespacedKey sep key nsArgs)] ∧
    (cacheSet .ready sep key v nsArgs reply).1 =
      [Cmd.set (namespacedKey sep key nsArgs) v] ∧
    (cacheSetEx .ready sep key v d nsArgs reply).1 =
      [Cmd.setex (namespacedKey sep key nsArgs) (setexSeconds d) v] ∧
    (cacheExists .ready sep key nsArgs reply).1 =
      [Cmd.existsKey (namespacedKey sep key nsArgs)] ∧
    (cacheDelete .ready sep key nsArgs reply).1 =
      [Cmd.del (namespacedKey sep key nsArgs)] ∧
    (∀ c' m', Cmd.scan c' m' ∈ (cacheGetKeys .ready sep key nsArgs steps).1 →
        m' = sprintfNoArgs (namespacedKey sep key nsArgs)) ∧
    (∀ c' m', Cmd.scan c' m' ∈ (cacheClear .ready sep key nsArgs steps unl).1 →
        m' = sprintfNoArgs (namespacedKey sep key nsArgs)) := by
  refine ⟨by simp [namespacedKey], by simp [namespacedKey], rfl, rfl, rfl, rfl, rfl,
    rfl, rfl, ?_, ?_⟩
  · intro c' m' hmem
    have htr : (cacheGetKeys .ready sep key nsArgs steps).1 =
        scanCmdsSpec (sprintfNoArgs (namespacedKey sep key nsArgs)) 0 steps := by
      show (getKeysLoop (sprintfNoArgs (namespacedKey sep key nsArgs)) 0 [] steps).1 = _
      rw [getKeysLoop_eq]
    rw [htr] at hmem
    exact scanCmdsSpec_matchArg _ steps 0 c' m' hmem
  · intro c' m' hmem
    have htr : (cacheClear .ready sep key nsArgs steps unl).1 =
        clearCmdsSpec (sprintfNoArgs (namespacedKey sep key nsArgs)) 0 steps unl := by
      show (clearLoop (sprintfNoArgs (namespacedKey sep key nsArgs)) 0 steps unl).1 = _
      rw [clearLoop_eq]
    rw [htr] at hmem
    exact clearCmdsSpec_matchArg _ steps 0 c' unl m' hmem

/-- Witness for C1 (amended) at concrete inputs. -/
theorem claim_C1_witness :
    Cmd.scan 0 "a:*" ∈ (cacheGetKeys .ready ":" "*" (some ["a"]) [.page 0 []]).1 ∧
    "a:*" = sprintfNoArgs (namespacedKey ":" "*" (some ["a"])) := by
  refine ⟨by decide, ?_⟩
  exact (claim_C1 ":" "*" "a" [] (some ["a"]) RVal.nil 0 (.ok .nil) [.page 0 []]
    []).2.2.2.2.2.2.2.2.2.1 0 "a:*" (by decide)

/-- C2: on a `nil` client or a client with a `nil` pool, every operation
returns the `NotInitialized` error and issues no command to the store
(the models are total functions, so the calls are also crash-free); for the
value-returning operations, `Except.error` models Go's
`(zero value, non-nil error)` return pair. -/
theorem claim_C2 (sep key pattern : String) (nsArgs : Option (List String)) (v : RVal)
    (d : Int) (reply : DoReply) (steps : List ScanStep) (unl : List (Option String)) :
    (cachePing .nilClient reply = ([], some notInitializedMsg) ∧
      cachePing .nilPool reply = ([], some notInitializedMsg)) ∧
    (cacheGet .nilClient sep key nsArgs reply = ([], .error notInitializedMsg) ∧
      cacheGet .nilPool sep key nsArgs reply = ([], .error notInitializedMsg)) ∧
    (cacheGetBool .nilClient sep key nsArgs reply = ([], .error notInitializedMsg) ∧
      cacheGetBool .nilPool sep key nsArgs reply = ([], .error notInitializedMsg)) ∧
    (cacheGetBytes .nilClient sep key nsArgs reply = ([], .error notInitializedMsg) ∧
      cacheGetBytes .nilPool sep key nsArgs reply = ([], .error notInitializedMsg)) ∧
    (cacheGetInt .nilClient sep key nsArgs reply = ([], .error notInitializedMsg) ∧
      cacheGetInt .nilPool sep key nsArgs reply = ([], .error notInitializedMsg)) ∧
    (cacheGetString .nilClient sep key nsArgs reply = ([], .error notInitializedMsg) ∧
      cacheGetString .nilPool sep key nsArgs reply = ([], .error notInitializedMsg)) ∧
    (cacheSet .nilClient sep key v nsArgs reply = ([], some notInitializedMsg) ∧
      cacheSet .nilPool sep key v nsArgs reply = ([], some notInitializedMsg)) ∧
    (cacheSetEx .nilClient sep key v d nsArgs reply = ([], some notInitializedMsg) ∧
      cacheSetEx .nilPool sep key v d nsArgs reply = ([], some notInitializedMsg)) ∧
    (cacheExists .nilClient sep key nsArgs reply = ([], .error notInitializedMsg) ∧
      cacheExists .nilPool sep key nsArgs reply = ([], .error notInitializedMsg)) ∧
    (cacheDelete .nilClient sep key nsArgs reply = ([], some notInitializedMsg) ∧
      cacheDelete .nilPool sep key nsArgs reply = ([], some notInitializedMsg)) ∧
    (cacheClear .nilClient sep pattern nsArgs steps unl =
        ([], some (some notInitializedMsg)) ∧
      cacheClear .nilPool sep pattern nsArgs steps unl =
        ([], some (some notInitializedMsg))) ∧
    (cacheClearAll .nilClient sep nsArgs steps unl = ([], some (some notInitializedMsg)) ∧
      cacheClearAll .nilPool sep nsArgs steps unl = ([], some (some notInitializedMsg))) ∧
    (cacheGetKeys .nilClient sep pattern nsArgs steps = ([], some (.error notInitializedMsg)) ∧
      cacheGetKeys .nilPool sep pattern nsArgs steps =
        ([], some (.error notInitializedMsg))) ∧
    (cacheGetAllKeys .nilClient sep nsArgs steps = ([], some (.error notInitializedMsg)) ∧
      cacheGetAllKeys .nilPool sep nsArgs steps =
        ([], some (.error notInitializedMsg))) := by
  and_intros <;> rfl

/-- C7: `GetAllKeys` and `ClearAll` are definitionally the pattern-`"*"`
forms of `GetKeys` and `Clear`: same commands issued, same result, for
every client state, namespace and store behaviour. -/
theorem claim_C7 (st : ClientState) (sep : String) (nsArgs : Option (List String))
    (steps : List ScanStep) (unl : List (Option String)) :
    cacheGetAllKeys st sep nsArgs steps = cacheGetKeys st sep "*" nsArgs steps ∧
    cacheClearAll st sep nsArgs steps unl = cacheClear st sep "*" nsArgs steps unl :=
  ⟨rfl, rfl⟩

/-- C8: passing an explicitly empty namespace slice (`some []`) is
indistinguishable from omitting the parameter (the `nil` slice, `none`):
every operation issues the same commands with the same effective key and
returns the same result, for every client state.  (The code only inspects
`len(namespace)`, which is `0` for both.) -/
theorem claim_C8 (st : ClientState) (sep key pattern : String) (v : RVal) (d : Int)
    (reply : DoReply) (steps : List ScanStep) (unl : List (Option String)) :
    cacheGet st sep key (some []) reply = cacheGet st sep key none reply ∧
    cacheGetBool st sep key (some []) reply = cacheGetBool st sep key none reply ∧
    cacheGetBytes st sep key (some []) reply = cacheGetBytes st sep key none reply ∧
    cacheGetInt st sep key (some []) reply = cacheGetInt st sep key none reply ∧
    cacheGetString st sep key (some []) reply = cacheGetString st sep key none reply ∧
    cacheSet st sep key v (some []) reply = cacheSet st sep key v none reply ∧
    cacheSetEx st sep key v d (some []) reply = cacheSetEx st sep key v d none reply ∧
    cacheExists st sep key (some []) reply = cacheExists st sep key none reply ∧
    cacheDelete st sep key (some []) reply = cacheDelete st sep key none reply ∧
    cacheClear st sep pattern (some []) steps unl =
      cacheClear st sep pattern none steps unl ∧
    cacheClearAll st sep (some []) steps unl = cacheClearAll st sep none steps unl ∧
    cacheGetKeys st sep pattern (some []) steps = cacheGetKeys st sep pattern none steps ∧
    cacheGetAllKeys st sep (some []) steps = cacheGetAllKeys st sep none steps := by
  and_intros <;> rfl

/-- C3, counterexample: when the first `SCAN` returns a page with an empty
key list and a non-zero cursor (5), `Clear` issues the next `SCAN` with
**no** `UNLINK` in between — the run completes with two `SCAN`s and zero
`UNLINK`s although both SCANs returned a page — refuting "for every page
of keys returned by SCAN, issues one UNLINK for that page before issuing
the next SCAN". -/
theorem claim_C3_counterexample :
    (cacheClear .ready ":" "*" none [.page 5 [], .page 0 []] []).1 =
      [Cmd.scan 0 "*", Cmd.scan 5 "*"] ∧
    (cacheClear .ready ":" "*" none [.page 5 [], .page 0 []] []).2 = some none ∧
    Cmd.unlink [] ∉ (cacheClear .ready ":" "*" none [.page 5 [], .page 0 []] []).1 := by
  exact ⟨by decide, by decide, by decide⟩

/-- C3, amended: `Clear` runs the same cursor-driven `SCAN` loop as
`GetKeys` (when no `UNLINK` fails, the `SCAN`s it issues are exactly those
of `GetKeys` on the same replies), and for every **non-empty** page of keys
returned by `SCAN` issues one `UNLINK` for that page before issuing the
next `SCAN` (empty pages get no `UNLINK`); on the first error from any
`SCAN` or `UNLINK` it stops and returns that error, with the `UNLINK`s of
all earlier non-empty pages already issued (no rollback). -/
theorem claim_C3 (sep pattern : String) (nsArgs : Option (List String))
    (steps : List ScanStep) (unl : List (Option String)) :
    cacheClear .ready sep pattern nsArgs steps unl =
      (clearCmdsSpec (sprintfNoArgs (namespacedKey sep pattern nsArgs)) 0 steps unl,
        clearResSpec steps unl) ∧
    ((∀ x ∈ unl, x = none) → steps.length ≤ unl.length →
      (cacheClear .ready sep pattern nsArgs steps unl).1.filter Cmd.isScan =
        (cacheGetKeys .ready sep pattern nsArgs steps).1) ∧
    (∀ ks ∈ clearPages steps unl, ks ≠ [] →
      Cmd.unlink ks ∈ (cacheClear .ready sep pattern nsArgs steps unl).1) := by
  have hclear : cacheClear .ready sep pattern nsArgs steps unl =
      (clearCmdsSpec (sprintfNoArgs (namespacedKey sep pattern nsArgs)) 0 steps unl,
        clearResSpec steps unl) := by
    show clearLoop (sprintfNoArgs (namespacedKey sep pattern nsArgs)) 0 steps unl = _
    rw [clearLoop_eq]
  refine ⟨hclear, ?_, ?_⟩
  · intro hall hlen
    have hkeys : (cacheGetKeys .ready sep pattern nsArgs steps).1 =
        scanCmdsSpec (sprintfNoArgs (namespacedKey sep pattern nsArgs)) 0 steps := by
      show (getKeysLoop (sprintfNoArgs (namespacedKey sep pattern nsArgs)) 0 [] steps).1 = _
      rw [getKeysLoop_eq]
    rw [hclear, hkeys]
    exact clearCmdsSpec_filter_scan _ steps 0 unl hall hlen
  · intro ks hmem hne
    rw [hclear]
    exact clearPages_unlink_mem _ steps 0 unl ks hmem hne

/-- Witness for C3 (amended) at concrete inputs. -/
theorem claim_C3_witness :
    (cacheClear .ready ":" "*" none [.page 2 ["x"], .page 0 ["y"]] [none, none]).1.filter
        Cmd.isScan =
      (cacheGetKeys .ready ":" "*" none [.page 2 ["x"], .page 0 ["y"]]).1 :=
  (claim_C3 ":" "*" none [.page 2 ["x"], .page 0 ["y"]] [none, none]).2.1
    (by decide) (by decide)

/-- C4: `GetKeys` issues `SCAN`s threaded by the cursor of the previous
reply starting at `0`, stopping exactly when the store reports cursor `0`
(`scanCmdsSpec`), and returns the page-order concatenation of all returned
pages without deduplication (`getKeysResSpec`); the `MATCH` argument it
sends is the namespaced pattern (as passed through `fmt.Sprintf` with no
operands, the identity for `%`-free patterns). -/
theorem claim_C4 (sep pattern : String) (nsArgs : Option (List String))
    (steps : List ScanStep) :
    cacheGetKeys .ready sep pattern nsArgs steps =
      (scanCmdsSpec (sprintfNoArgs (namespacedKey sep pattern nsArgs)) 0 steps,
        getKeysResSpec steps) := by
  show getKeysLoop (sprintfNoArgs (namespacedKey sep pattern nsArgs)) 0 [] steps = _
  rw [getKeysLoop_eq]
  cases hr : getKeysResSpec steps with
  | none => rfl
  | some r =>
      cases r with
      | ok ks => simp [Except.map]
      | error e => simp [Except.map]

/-- C5, counterexample: `ttl = -2s` is strictly below one second, yet the
seconds value passed to `SETEX` is `-2`, not `0` (Go's integer division
truncates toward zero, so negative durations below one second do not map
to `0`). -/
theorem claim_C5_counterexample :
    (-2000000000 : Int) < nsPerSecond ∧
    (cacheSetEx .ready ":" "k" (.bulk "v") (-2000000000) none (.ok (.status "OK"))).1 =
      [Cmd.setex "k" (-2) (.bulk "v")] ∧
    (-2 : Int) ≠ 0 := by
  exact ⟨by decide, by decide, by decide⟩

/-- C5, amended: `SetEx` passes to `SETEX` the whole number of seconds in
`ttl` obtained by truncation toward zero — the sign of `ttl` times the
floor of `|ttl|` in seconds (fractional seconds dropped, not rounded) —
and for every `ttl` with `0 ≤ ttl` strictly below one second the value
passed is `0`.  (Negative `ttl` yields the negated truncation, not `0`.) -/
theorem claim_C5 (sep key : String) (v : RVal) (d : Int) (nsArgs : Option (List String))
    (reply : DoReply) :
    (cacheSetEx .ready sep key v d nsArgs reply).1 =
      [Cmd.setex (namespacedKey sep key nsArgs) (setexSeconds d) v] ∧
    setexSeconds d = d.sign * ((d.natAbs / 1000000000 : Nat) : Int) ∧
    (0 ≤ d → d < nsPerSecond → setexSeconds d = 0) :=
  ⟨rfl, setexSeconds_eq d, fun h0 h1 => setexSeconds_eq_zero d h0 h1⟩

/-- Witness for C5 (amended) at a concrete input: `ttl = 999999999ns`
(just under one second) truncates to `0`. -/
theorem claim_C5_witness : setexSeconds 999999999 = 0 :=
  (claim_C5 ":" "k" RVal.nil 999999999 none (.ok .nil)).2.2 (by decide) (by decide)

/-- C6, counterexample: a failing `SCAN` inside `Clear` with pattern `"p"`
and namespace `["a"]` (effective pattern `"a:p"`) is wrapped as
`"failed to clear db, reason boom"` — the attempted effective key/pattern
does not occur in the returned error, refuting "this holds for all
operations, including the scan-based Clear and GetKeys". -/
theorem claim_C6_counterexample :
    (cacheClear .ready ":" "p" (some ["a"]) [.fail "boom"] []).2 =
      some (some "failed to clear db, reason boom") ∧
    ¬ ("a:p".data <:+: "failed to clear db, reason boom".data) := by
  exact ⟨by decide, by decide⟩

/-- C6, amended: `Get`, `Set`, `SetEx`, `Exists` and `Delete` wrap a store
error with operation context that contains both the attempted effective
key and the store's error; `Ping` wraps with operation context and the
store's error (no key is involved); `Clear` and `GetKeys` wrap the store's
error with operation context only — their messages are fixed strings plus
the store error and do not contain the attempted pattern. -/
theorem claim_C6 (sep key e : String) (nsArgs : Option (List String)) (v : RVal)
    (d : Int) (steps : List ScanStep) (unl : List (Option String)) :
    ((cacheGet .ready sep key nsArgs (.error e)).2 =
        .error (getWrap (namespacedKey sep key nsArgs) e) ∧
      (namespacedKey sep key nsArgs).data <:+:
        (getWrap (namespacedKey sep key nsArgs) e).data ∧
      e.data <:+: (getWrap (namespacedKey sep key nsArgs) e).data) ∧
    ((cacheSet .ready sep key v nsArgs (.error e)).2 =
        some (setWrap (namespacedKey sep key nsArgs) e) ∧
      (namespacedKey sep key nsArgs).data <:+:
        (setWrap (namespacedKey sep key nsArgs) e).data ∧
      e.data <:+: (setWrap (namespacedKey sep key nsArgs) e).data) ∧
    ((cacheSetEx .ready sep key v d nsArgs (.error e)).2 =
        some (setWrap (namespacedKey sep key nsArgs) e) ∧
      (namespacedKey sep key nsArgs).data <:+:
        (setWrap (namespacedKey sep key nsArgs) e).data) ∧
    ((cacheExists .ready sep key nsArgs (.error e)).2 =
        .error (existsWrap (namespacedKey sep key nsArgs) e) ∧
      (namespacedKey sep key nsArgs).data <:+:
        (existsWrap (namespacedKey sep key nsArgs) e).data ∧
      e.data <:+: (existsWrap (namespacedKey sep key nsArgs) e).data) ∧
    ((cacheDelete .ready sep key nsArgs (.error e)).2 =
        some (deleteWrap (namespacedKey sep key nsArgs) e) ∧
      (namespacedKey sep key nsArgs).data <:+:
        (deleteWrap (namespacedKey sep key nsArgs) e).data ∧
      e.data <:+: (deleteWrap (namespacedKey sep key nsArgs) e).data) ∧
    ((cachePing .ready (.error e)).2 = some (pingWrap e) ∧
      e.data <:+: (pingWrap e).data) ∧
    ((cacheClear .ready sep key nsArgs (.fail e :: steps) unl).2 =
        some (some (clearWrap e)) ∧
      clearWrap e = "failed to clear db, reason " ++ e) ∧
    ((cacheGetKeys .ready sep key nsArgs (.fail e :: steps)).2 =
        some (.error (getKeysWrap e)) ∧
      getKeysWrap e = "failed to retrieve keys, reason " ++ e) := by
  refine ⟨⟨rfl, ?_, ?_⟩, ⟨rfl, ?_, ?_⟩, ⟨rfl, ?_⟩, ⟨rfl, ?_, ?_⟩, ⟨rfl, ?_, ?_⟩,
    ⟨rfl, ?_⟩, ⟨rfl, rfl⟩, ⟨rfl, rfl⟩⟩
  · exact ⟨"failed to retrieve key '".data, ("', reason " ++ e).data,
      by simp [getWrap, String.data_append]⟩
  · exact ⟨("failed to retrieve key '" ++ namespacedKey sep key nsArgs ++ "', reason ").data,
      [], by simp [getWrap, String.data_append]⟩
  · exact ⟨"failed to set value to key '".data, ("', reason: " ++ e).data,
      by simp [setWrap, String.data_append]⟩
  · exact ⟨("failed to set value to key '" ++ namespacedKey sep key nsArgs ++
      "', reason: ").data, [], by simp [setWrap, String.data_append]⟩
  · exact ⟨"failed to set value to key '".data, ("', reason: " ++ e).data,
      by simp [setWrap, String.data_append]⟩
  · exact ⟨"failed to check key '".data, ("' existance, reason: " ++ e).data,
      by simp [existsWrap, String.data_append]⟩
  · exact ⟨("failed to check key '" ++ namespacedKey sep key nsArgs ++
      "' existance, reason: ").data, [], by simp [existsWrap, String.data_append]⟩
  · exact ⟨"failed to delete key '".data, ("', reason: " ++ e).data,
      by simp [deleteWrap, String.data_append]⟩
  · exact ⟨("failed to delete key '" ++ namespacedKey sep key nsArgs ++
      "', reason: ").data, [], by simp [deleteWrap, String.data_append]⟩
  · exact ⟨"failed to 'PING' db, reason: ".data, [],
      by simp [pingWrap, String.data_append]⟩

/-- C9: the `MATCH` argument sent with each `SCAN` of `Clear`/`GetKeys` is
the namespaced pattern passed through `fmt.Sprintf` with no operands; it
equals the namespaced pattern whenever that pattern contains no `%`; and
for the caller-supplied pattern `"%d"` the argument actually sent is
`"%!d(MISSING)"`, which differs from the pattern. -/
theorem claim_C9 (sep pattern : String) (nsArgs : Option (List String))
    (steps : List ScanStep) (unl : List (Option String)) :
    (∀ c' m', Cmd.scan c' m' ∈ (cacheGetKeys .ready sep pattern nsArgs steps).1 →
        m' = sprintfNoArgs (namespacedKey sep pattern nsArgs)) ∧
    (∀ c' m', Cmd.scan c' m' ∈ (cacheClear .ready sep pattern nsArgs steps unl).1 →
        m' = sprintfNoArgs (namespacedKey sep pattern nsArgs)) ∧
    ('%' ∉ (namespacedKey sep pattern nsArgs).data →
      sprintfNoArgs (namespacedKey sep pattern nsArgs) =
        namespacedKey sep pattern nsArgs) ∧
    (sprintfNoArgs "%d" = "%!d(MISSING)" ∧ sprintfNoArgs "%d" ≠ "%d" ∧
      (cacheGetKeys .ready ":" "%d" none [ScanStep.page 0 []]).1 =
        [Cmd.scan 0 "%!d(MISSING)"]) := by
  refine ⟨?_, ?_, ?_, by decide, by decide, by decide⟩
  · intro c' m' hmem
    have htr : (cacheGetKeys .ready sep pattern nsArgs steps).1 =
        scanCmdsSpec (sprintfNoArgs (namespacedKey sep pattern nsArgs)) 0 steps := by
      show (getKeysLoop (sprintfNoArgs (namespacedKey sep pattern nsArgs)) 0 [] steps).1 = _
      rw [getKeysLoop_eq]
    rw [htr] at hmem
    exact scanCmdsSpec_matchArg _ steps 0 c' m' hmem
  · intro c' m' hmem
    have htr : (cacheClear .ready sep pattern nsArgs steps unl).1 =
        clearCmdsSpec (sprintfNoArgs (namespacedKey sep pattern nsArgs)) 0 steps unl := by
      show (clearLoop (sprintfNoArgs (namespacedKey sep pattern nsArgs)) 0 steps unl).1 = _
      rw [clearLoop_eq]
    rw [htr] at hmem
    exact clearCmdsSpec_matchArg _ steps 0 c' unl m' hmem
  · intro hnp
    exact sprintfNoArgs_of_no_percent _ hnp

/-- Witness for C9 at concrete inputs: the `%`-free effective pattern
`"a:*"` is sent unchanged. -/
theorem claim_C9_witness :
    Cmd.scan 0 "a:*" ∈ (cacheClear .ready ":" "*" (some ["a"]) [.page 0 []] []).1 ∧
    sprintfNoArgs (namespacedKey ":" "*" (some ["a"])) = namespacedKey ":" "*" (some ["a"]) := by
  refine ⟨by decide, ?_⟩
  exact (claim_C9 ":" "*" (some ["a"]) [.page 0 []] []).2.2.1 (by decide)

/-- C10: in `Clear`, `UNLINK` is issued only for pages whose key list is
non-empty: every `UNLINK` in the trace carries a non-empty key list, the
number of `UNLINK`s equals the number of non-empty pages received, and
every non-empty page received has its `UNLINK` in the trace. -/
theorem claim_C10 (sep pattern : String) (nsArgs : Option (List String))
    (steps : List ScanStep) (unl : List (Option String)) :
    (∀ ks, Cmd.unlink ks ∈ (cacheClear .ready sep pattern nsArgs steps unl).1 → ks ≠ []) ∧
    (cacheClear .ready sep pattern nsArgs steps unl).1.countP Cmd.isUnlink =
      (clearPages steps unl).countP (fun ks => !ks.isEmpty) ∧
    (∀ ks ∈ clearPages steps unl, ks ≠ [] →
      Cmd.unlink ks ∈ (cacheClear .ready sep pattern nsArgs steps unl).1) := by
  have hclear : (cacheClear .ready sep pattern nsArgs steps unl).1 =
      clearCmdsSpec (sprintfNoArgs (namespacedKey sep pattern nsArgs)) 0 steps unl := by
    show (clearLoop (sprintfNoArgs (namespacedKey sep pattern nsArgs)) 0 steps unl).1 = _
    rw [clearLoop_eq]
  refine ⟨?_, ?_, ?_⟩
  · intro ks hmem
    rw [hclear] at hmem
    exact clearCmdsSpec_unlink_ne_nil _ steps 0 unl ks hmem
  · rw [hclear]
    exact clearCmdsSpec_countP_unlink _ steps 0 unl
  · intro ks hmem hne
    rw [hclear]
    exact clearPages_unlink_mem _ steps 0 unl ks hmem hne

/-- Witness for C10 at concrete inputs: a non-empty page's `UNLINK` is in
the trace. -/
theorem claim_C10_witness :
    Cmd.unlink ["x"] ∈ (cacheClear .ready ":" "*" none [.page 0 ["x"]] [none]).1 :=
  (claim_C10 ":" "*" none [.page 0 ["x"]] [none]).2.2 ["x"] (by decide) (by decide)

end RedisGoCache
